import Mathlib

/-!
Verification of the peer-to-peer UDP chat tool `src/p2p_chat.py`.

The program exchanges JSON-encoded datagrams.  We embed the JSON objects the
program builds and inspects as association lists from string keys to a small
value type (`JVal`): every field the program ever writes or reads is a string
or a number.  Timestamps (`time.time()`) and file sizes are modelled as `Int`.
The Python `json` library's byte-level `dumps`/`loads` round trip is treated
as the transport identity; a byte string rejected by `json.loads` is modelled
by the `Datagram.invalid` constructor and a valid JSON document that is not an
object (so that `message.get` raises `AttributeError`) by
`Datagram.nonObject`.

State (`P2PChat.peers`, `P2PChat.current_chat`, `P2PChat.username`) is the
`ChatState` structure; the handlers become pure state-transition functions
returning the new state together with the list of user-visible events they
print.  Python exceptions inside `handle_message`'s `try` block are modelled
with `Except`: in the source no state mutation ever precedes a raise inside
the block, so catching an `Except.error` with the state unchanged is faithful.
Python truthiness of the `current_chat` string (`None` and `""` are falsy) is
modelled by `truthy`.
-/

namespace P2P

/-- A JSON value as used by the program: every field written by the senders
and read by the handlers is a string or a number. -/
inductive JVal where
  | str (s : String)
  | num (n : Int)
deriving DecidableEq, Repr

/-- A JSON object: association list from keys to values, in insertion order
(Python dicts preserve insertion order). -/
abbrev Json := List (String × JVal)

/-- Python `message.get(k)` / `message[k]`: first binding of key `k`. -/
def jget (j : Json) (k : String) : Option JVal :=
  match j with
  | [] => none
  | (k', v) :: rest => if k' = k then some v else jget rest k

/-- Python `message.get('to_username') == self.username`: a JSON value equals
a Python string only when it is that string. -/
def jeqStr (v : Option JVal) (s : String) : Bool :=
  match v with
  | some (JVal.str t) => t = s
  | _ => false

/-- Python truthiness of the `current_chat` field: `None` and `""` are falsy,
every other string is truthy. -/
def truthy : Option String → Bool
  | none => false
  | some s => s ≠ ""

/-- Python `s.startswith(pre)`, by code points. -/
def pyStartsWith (s pre : String) : Bool := pre.data.isPrefixOf s.data

/-- Python `s[n:]`: drop the first `n` code points. -/
def pyDrop (s : String) (n : Nat) : String := ⟨s.data.drop n⟩

/-- Python `s.strip()`: remove leading and trailing whitespace. -/
def pyStrip (s : String) : String :=
  ⟨((s.data.dropWhile Char.isWhitespace).reverse.dropWhile Char.isWhitespace).reverse⟩

/-- Registry entry `{'username': ..., 'last_seen': ...}`.  The username is
stored exactly as received from the datagram, hence a `JVal`. -/
structure PeerInfo where
  username : JVal
  last_seen : Int
deriving DecidableEq, Repr

/-- The mutable state of a `P2PChat` object that the claims are about. -/
structure ChatState where
  username : String
  peers : List (String × PeerInfo)
  current_chat : Option String
deriving DecidableEq, Repr

/-- Python `self.peers[ip] = info`: replace the binding if the key is present,
otherwise append it (Python dict assignment). -/
def upsert (k : String) (v : PeerInfo) : List (String × PeerInfo) → List (String × PeerInfo)
  | [] => [(k, v)]
  | (k', v') :: rest => if k' = k then (k, v) :: rest else (k', v') :: upsert k v rest

/-- Python `del self.peers[ip]`: drop the (first) binding of the key. -/
def removeKey (k : String) : List (String × PeerInfo) → List (String × PeerInfo)
  | [] => []
  | (k', v') :: rest => if k' = k then rest else (k', v') :: removeKey k rest

/-- Python `ip in self.peers` / `self.peers[ip]` (and the path lookup of the
modelled filesystem): look up a binding by string key. -/
def lookupKey {α : Type} (k : String) : List (String × α) → Option α
  | [] => none
  | (k', v) :: rest => if k' = k then some v else lookupKey k rest

/-- The set of registry keys (peer addresses). -/
def keys : List (String × PeerInfo) → List String
  | [] => []
  | (k, _) :: rest => k :: keys rest

/-- The six wire message kinds.  The `chat` variant travels with type tag
`"message"` in the source.  Fields follow the dictionaries built by
`send_presence`/`broadcast_presence`, `send_message`, `send_typing`,
`handle_message`'s `read_receipt` branch, `send_file_offer` and
`send_disconnect`. -/
inductive Message where
  | presence (username : String) (timestamp : Int)
  | chat (from_username rcpt text : String) (timestamp : Int)
  | typing (from_username rcpt : String) (timestamp : Int)
  | read_receipt (from_username rcpt : String) (timestamp : Int)
  | file_offer (from_username rcpt filename : String) (size : Int) (hash : String) (timestamp : Int)
  | disconnect (username : String) (timestamp : Int)
deriving DecidableEq, Repr

/-- Modelled from the spec: the repository has no sender for `read_receipt`
datagrams (only `handle_message` consumes them), so the encoder for this kind
is taken from the spec's wire schema (`sender_name`, `recipient_name`,
`timestamp`), using the same JSON keys the repository's decoder reads
(`from_username`, `to_username`) and the `type` tag the dispatcher matches. -/
def encode_read_receipt (f rcpt : String) (t : Int) : Json :=
  [("type", JVal.str "read_receipt"), ("from_username", JVal.str f),
   ("to_username", JVal.str rcpt), ("timestamp", JVal.num t)]

/-- The wire encoder: the JSON dictionary each sender method builds, with keys
in the source's insertion order. -/
def encode : Message → Json
  | Message.presence u t =>
      [("type", JVal.str "presence"), ("username", JVal.str u), ("timestamp", JVal.num t)]
  | Message.chat f rcpt text t =>
      [("type", JVal.str "message"), ("from_username", JVal.str f),
       ("to_username", JVal.str rcpt), ("text", JVal.str text), ("timestamp", JVal.num t)]
  | Message.typing f rcpt t =>
      [("type", JVal.str "typing"), ("from_username", JVal.str f),
       ("to_username", JVal.str rcpt), ("timestamp", JVal.num t)]
  | Message.read_receipt f rcpt t => encode_read_receipt f rcpt t
  | Message.file_offer f rcpt name size hash t =>
      [("type", JVal.str "file_offer"), ("from_username", JVal.str f),
       ("to_username", JVal.str rcpt), ("filename", JVal.str name),
       ("size", JVal.num size), ("hash", JVal.str hash), ("timestamp", JVal.num t)]
  | Message.disconnect u t =>
      [("type", JVal.str "disconnect"), ("username", JVal.str u), ("timestamp", JVal.num t)]

/-- The kind tag as the dispatcher computes it:
`message.get('type', 'message')`, usable for dispatch only when it is a
string. -/
def kindOf (j : Json) : Option String :=
  match jget j "type" with
  | none => some "message"
  | some (JVal.str s) => some s
  | some _ => none

/-- Field access expecting a string value: a string field the handlers call
string methods on (`.startswith`, slicing). -/
def jgetStr (j : Json) (k : String) : Option String :=
  match jget j k with
  | some (JVal.str s) => some s
  | _ => none

/-- Field access expecting a number. -/
def jgetNum (j : Json) (k : String) : Option Int :=
  match jget j k with
  | some (JVal.num n) => some n
  | _ => none

/-- The wire decoder: classify by the dispatcher's type tag (including the
`'message'` default) and read back exactly the fields the senders write.  A
missing or wrongly-typed required field yields `none`. -/
def decode (j : Json) : Option Message :=
  match kindOf j with
  | some t =>
    if t = "presence" then do
      let u ← jgetStr j "username"
      let ts ← jgetNum j "timestamp"
      some (Message.presence u ts)
    else if t = "message" then do
      let f ← jgetStr j "from_username"
      let rcpt ← jgetStr j "to_username"
      let text ← jgetStr j "text"
      let ts ← jgetNum j "timestamp"
      some (Message.chat f rcpt text ts)
    else if t = "typing" then do
      let f ← jgetStr j "from_username"
      let rcpt ← jgetStr j "to_username"
      let ts ← jgetNum j "timestamp"
      some (Message.typing f rcpt ts)
    else if t = "read_receipt" then do
      let f ← jgetStr j "from_username"
      let rcpt ← jgetStr j "to_username"
      let ts ← jgetNum j "timestamp"
      some (Message.read_receipt f rcpt ts)
    else if t = "file_offer" then do
      let f ← jgetStr j "from_username"
      let rcpt ← jgetStr j "to_username"
      let name ← jgetStr j "filename"
      let size ← jgetNum j "size"
      let hash ← jgetStr j "hash"
      let ts ← jgetNum j "timestamp"
      some (Message.file_offer f rcpt name size hash ts)
    else if t = "disconnect" then do
      let u ← jgetStr j "username"
      let ts ← jgetNum j "timestamp"
      some (Message.disconnect u ts)
    else none
  | none => none

/-- An inbound datagram as it reaches `handle_message`:
`invalid` models bytes rejected by `json.loads` (the
`json.JSONDecodeError` path), `nonObject` a valid JSON document that is not an
object (so `message.get` raises `AttributeError`, caught by the generic
handler), `obj` a decoded JSON object. -/
inductive Datagram where
  | invalid
  | nonObject
  | obj (j : Json)
deriving DecidableEq, Repr

/-- User-visible output lines of the handlers, reduced to their data. -/
inductive Event where
  | renderChat (sender : JVal) (fromIp : String) (text : String)
  | renderTyping (sender : JVal)
  | renderReadReceipt (sender : JVal)
  | fileOfferShown (filename size : JVal) (hash : String) (sender : JVal) (fromIp : String)
  | peerDisconnected (username : JVal) (fromIp : String)
  | invalidMessage (fromIp : String)
  | handlerError
  | msgSwitched (username : JVal) (target : String)
  | userNotFound (target : String)
  | leftChat (username : JVal)
  | listShown
  | helpShown
  | fileNotFound (path : String)
  | fileOfferSent (basename : String) (size : Int)
deriving DecidableEq, Repr

/-- Embedding of `P2PChat.handle_command`: the in-chat command interpreter, invoked by
`handle_message` on inbound chat texts that start with `/`.  `fromIp` is the
optional sender address (`None` for a local call).  `Except.error` models a
Python exception escaping the method (the `KeyError` on
`self.peers[self.current_chat]` in the `/quit` branch). -/
def handle_command (st : ChatState) (command : String) (fromIp : Option String) :
    Except String (ChatState × List Event) :=
  if pyStartsWith command "/msg " then
    match lookupKey (pyStrip (pyDrop command 5)) st.peers with
    | some info =>
        Except.ok ({ st with current_chat := some (pyStrip (pyDrop command 5)) },
                   [Event.msgSwitched info.username (pyStrip (pyDrop command 5))])
    | none => Except.ok (st, [Event.userNotFound (pyStrip (pyDrop command 5))])
  else if command = "/list" then
    Except.ok (st, [Event.listShown])
  else if command = "/quit" ∧ truthy fromIp then
    match st.current_chat with
    | some cc =>
      if cc ≠ "" then
        match lookupKey cc st.peers with
        | some info => Except.ok ({ st with current_chat := none }, [Event.leftChat info.username])
        | none => Except.error "KeyError"
      else Except.ok (st, [])
    | none => Except.ok (st, [])
  else if command = "/help" then
    Except.ok (st, [Event.helpShown])
  else Except.ok (st, [])

/-- The body of `P2PChat.handle_message`'s `try` block on a decoded JSON
object: dispatch on the type tag (`message.get('type', 'message')`) and run
the matching branch.  `Except.error k` models a raised exception (`KeyError`
on a missing field `k`, or a type error on a field used as a string); in the
source no state mutation ever precedes a raise, so the error carries no
state. -/
def handleBody (st : ChatState) (j : Json) (fromIp : String) (now : Int) :
    Except String (ChatState × List Event) :=
  match kindOf j with
  | none => Except.ok (st, [])
  | some t =>
    if t = "presence" then
      match jget j "username" with
      | some u => Except.ok ({ st with peers := upsert fromIp ⟨u, now⟩ st.peers }, [])
      | none => Except.error "username"
    else if t = "message" then
      if jeqStr (jget j "to_username") st.username then
        match jget j "from_username" with
        | none => Except.error "from_username"
        | some sender =>
          match jgetStr j "text" with
          | none => Except.error "text"
          | some text => do
            let (st1, evs) ←
              if pyStartsWith text "/" then handle_command st text (some fromIp)
              else Except.ok (st, [Event.renderChat sender fromIp text])
            let st2 := if truthy st1.current_chat then st1 else { st1 with current_chat := some fromIp }
            Except.ok (st2, evs)
      else Except.ok (st, [])
    else if t = "typing" then
      if jeqStr (jget j "to_username") st.username then
        match jget j "from_username" with
        | some sender => Except.ok (st, [Event.renderTyping sender])
        | none => Except.error "from_username"
      else Except.ok (st, [])
    else if t = "read_receipt" then
      if jeqStr (jget j "to_username") st.username then
        match jget j "from_username" with
        | some sender => Except.ok (st, [Event.renderReadReceipt sender])
        | none => Except.error "from_username"
      else Except.ok (st, [])
    else if t = "file_offer" then
      if jeqStr (jget j "to_username") st.username then
        match jget j "filename" with
        | none => Except.error "filename"
        | some name =>
          match jget j "size" with
          | none => Except.error "size"
          | some size =>
            match jgetStr j "hash" with
            | none => Except.error "hash"
            | some hash =>
              match jget j "from_username" with
              | none => Except.error "from_username"
              | some sender =>
                Except.ok (st, [Event.fileOfferShown name size hash sender fromIp])
      else Except.ok (st, [])
    else if t = "disconnect" then
      match lookupKey fromIp st.peers with
      | some info =>
          let cc := if st.current_chat = some fromIp then none else st.current_chat
          Except.ok ({ st with current_chat := cc, peers := removeKey fromIp st.peers },
                     [Event.peerDisconnected info.username fromIp])
      | none => Except.ok (st, [])
    else Except.ok (st, [])

/-- Embedding of `P2PChat.handle_message`: decode the datagram and dispatch; a JSON decode
failure prints the invalid-message line with the sender address, any other
exception prints the generic error line; both leave the state as it was when
the exception was raised. -/
def handle_message (st : ChatState) (data : Datagram) (fromIp : String) (now : Int) :
    ChatState × List Event :=
  match data with
  | Datagram.invalid => (st, [Event.invalidMessage fromIp])
  | Datagram.nonObject => (st, [Event.handlerError])
  | Datagram.obj j =>
    match handleBody st j fromIp now with
    | Except.ok r => r
    | Except.error _ => (st, [Event.handlerError])

/-- The status string `list_peers` derives for one registry entry:
`"Active"` iff `time.time() - last_seen < 60`. -/
def peer_status (now : Int) (info : PeerInfo) : String :=
  if now - info.last_seen < 60 then "Active" else "Inactive"

/-- Embedding of `P2PChat.list_peers`: the snapshot printed for `/list` — every registry
entry with its username, address and derived liveness status. -/
def list_peers (now : Int) (ps : List (String × PeerInfo)) : List (JVal × String × String) :=
  ps.map (fun p => (p.2.username, p.1, peer_status now p.2))

/-- A datagram passed to `socket.sendto`: destination address and JSON
payload. -/
structure Sent where
  dest : String
  payload : Json
deriving DecidableEq, Repr

/-- Python `os.path.basename` on a POSIX path: the part after the last slash. -/
def basename (p : String) : String := ⟨(p.data.reverse.takeWhile (· ≠ '/')).reverse⟩

/-- Embedding of `P2PChat.send_file_offer`: the local filesystem is modelled as a finite
map from paths to byte contents (`os.path.exists`, `os.path.getsize` and
`open` are OS calls), and `hashFn` abstracts the external
`hashlib.sha256(...).hexdigest()` computed by `calculate_file_hash`.  If the
path does not resolve, print the file-not-found line and return without
sending; otherwise build the `file_offer` datagram and send it.  The method
never writes any session field, so the state is returned unchanged on both
paths. -/
def send_file_offer (st : ChatState) (fs : List (String × List Nat))
    (hashFn : List Nat → String) (filename peer_username peer_ip : String) (now : Int) :
    ChatState × List Event × List Sent :=
  match lookupKey filename fs with
  | none => (st, [Event.fileNotFound filename], [])
  | some content =>
      let size : Int := content.length
      let hash := hashFn content
      let payload : Json :=
        [("type", JVal.str "file_offer"), ("from_username", JVal.str st.username),
         ("to_username", JVal.str peer_username), ("filename", JVal.str (basename filename)),
         ("size", JVal.num size), ("hash", JVal.str hash), ("timestamp", JVal.num now)]
      (st, [Event.fileOfferSent (basename filename) size], [⟨peer_ip, payload⟩])

/-- One datagram drained during the discovery window: the local clock value
when it is processed, its source address, and its payload. -/
structure InEvent where
  arrival : Int
  src : String
  data : Datagram
deriving DecidableEq, Repr

/-- One iteration of the `discover_peers` drain loop: upsert on a `presence`
datagram (`message.get('type') == 'presence'`, no default here) from an
address other than the local one, provided the `username` field is present;
any exception (JSON decode failure, non-object document, missing key) is
swallowed by the bare `except` and leaves the registry unchanged. -/
def discover_step (localIp : String) (ps : List (String × PeerInfo)) (e : InEvent) :
    List (String × PeerInfo) :=
  match e.data with
  | Datagram.obj j =>
    if jeqStr (jget j "type") "presence" ∧ e.src ≠ localIp then
      match jget j "username" with
      | some u => upsert e.src ⟨u, e.arrival⟩ ps
      | none => ps
    else ps
  | _ => ps

/-- The discovery loop's responder test: a JSON object whose `type` field is
the string `"presence"` (`message.get('type') == 'presence'`). -/
def isPresenceDatagram : Datagram → Bool
  | Datagram.obj j => jeqStr (jget j "type") "presence"
  | _ => false

/-- Embedding of `P2PChat.discover_peers`: reset the registry to empty
(`self.peers = {}`), then drain inbound datagrams while
`time.time() - start_time < timeout`, upserting presence responders from
non-local addresses; the final registry is what `list_peers` prints at window
close.  The drained traffic is the sublist of `inbox` whose processing times
fall inside the window. -/
def discover_peers (localIp : String) (start timeout : Int) (inbox : List InEvent) :
    List (String × PeerInfo) :=
  (inbox.filter (fun e => e.arrival - start < timeout)).foldl (discover_step localIp) []

/-- Well-formedness of an inbound datagram: it is a JSON object that decodes
to one of the six wire message kinds. -/
def wellFormed (d : Datagram) : Bool :=
  match d with
  | Datagram.obj j => (decode j).isSome
  | _ => false

/-- The type tag `handle_message` dispatches a datagram on (with the
`'message'` default); `none` when the dispatcher reaches no branch at all. -/
def datagramKind : Datagram → Option String
  | Datagram.obj j => kindOf j
  | _ => none

/-- A datagram that `handle_message` routes into `handle_command`: a chat
(type tag `message`) addressed to the local display name whose text is a
string starting with `/`. -/
def isCommandChat (d : Datagram) (me : String) : Bool :=
  match d with
  | Datagram.obj j =>
    decide (kindOf j = some "message") && jeqStr (jget j "to_username") me &&
      (match jgetStr j "text" with
       | some t => pyStartsWith t "/"
       | none => false)
  | _ => false

/-- C1: for every valid Message variant of the six kinds, decoding the bytes
produced by encoding that message yields the original message:
`decode(encode(m)) == m`. -/
theorem decode_encode (m : Message) : decode (encode m) = some m := by
  cases m <;>
    simp [decode, encode, encode_read_receipt, kindOf, jget, jgetStr, jgetNum]

theorem lookupKey_upsert_self (ps : List (String × PeerInfo)) (k : String) (v : PeerInfo) :
    lookupKey k (upsert k v ps) = some v := by
  induction ps with
  | nil => simp [upsert, lookupKey]
  | cons hd tl ih =>
    by_cases h : hd.1 = k <;> simp [upsert, lookupKey, h, ih]

theorem lookupKey_removeKey_upsert (ps : List (String × PeerInfo)) (k : String) (v : PeerInfo)
    (h : lookupKey k ps = none) : removeKey k (upsert k v ps) = ps := by
  induction ps with
  | nil => simp [upsert, removeKey]
  | cons hd tl ih =>
    by_cases hk : hd.1 = k
    · simp [lookupKey, hk] at h
    · simp [lookupKey, hk] at h
      simp [upsert, removeKey, hk, ih h]

theorem mem_keys_upsert (ps : List (String × PeerInfo)) (k a : String) (v : PeerInfo)
    (h : a ∈ keys ps) : a ∈ keys (upsert k v ps) := by
  induction ps with
  | nil => simp [keys] at h
  | cons hd tl ih =>
    rcases hd with ⟨k', v'⟩
    by_cases hk : k' = k
    · subst hk
      simp only [upsert, if_pos rfl, keys, List.mem_cons] at h ⊢
      exact h
    · simp only [upsert, if_neg hk, keys, List.mem_cons] at h ⊢
      rcases h with h | h
      · exact Or.inl h
      · exact Or.inr (ih h)

theorem handle_command_peers (st : ChatState) (c : String) (ip : Option String)
    (st' : ChatState) (evs : List Event)
    (h : handle_command st c ip = Except.ok (st', evs)) : st'.peers = st.peers := by
  unfold handle_command at h
  split_ifs at h <;> (try (repeat' split at h)) <;>
    first
    | exact Except.noConfusion h
    | (injection h with h; injection h with h1 h2; rw [← h1])

theorem handleBody_peers (st : ChatState) (j : Json) (fromIp : String) (now : Int)
    (st' : ChatState) (evs : List Event)
    (h : handleBody st j fromIp now = Except.ok (st', evs)) :
    st'.peers = st.peers ∨ (∃ u, st'.peers = upsert fromIp u st.peers) ∨
      (kindOf j = some "disconnect" ∧ st'.peers = removeKey fromIp st.peers) := by
  unfold handleBody at h
  split at h
  · injection h with h; injection h with h1 h2; exact Or.inl (by rw [← h1])
  rename_i t heq
  split_ifs at h with hc1 hc2 hc3 hc4 hc5 hc6 hc7 hc8 hc9 hc10 hc11
  · -- presence
    split at h
    · injection h with h; injection h with h1 h2
      exact Or.inr (Or.inl ⟨_, by rw [← h1]⟩)
    · exact Except.noConfusion h
  · -- message addressed to self
    split at h
    · exact Except.noConfusion h
    rename_i sender _
    split at h
    · exact Except.noConfusion h
    rename_i text _
    split at h
    · -- command chat
      rcases hcmd : handle_command st text (some fromIp) with e | p
      all_goals rw [hcmd] at h
      · exact Except.noConfusion h
      · rcases p with ⟨st1, evs1⟩
        simp only [bind, Except.bind, Except.ok.injEq, Prod.mk.injEq] at h
        rcases h with ⟨h1, -⟩
        have hp := handle_command_peers st text (some fromIp) st1 evs1 hcmd
        rw [← h1]
        split <;> exact Or.inl hp
    · -- plain chat
      simp only [bind, Except.bind, Except.ok.injEq, Prod.mk.injEq] at h
      rcases h with ⟨h1, -⟩
      rw [← h1]
      split <;> exact Or.inl rfl
  · -- message not addressed to self
    injection h with h; injection h with h1 h2; exact Or.inl (by rw [← h1])
  · -- typing addressed to self
    split at h
    · injection h with h; injection h with h1 h2; exact Or.inl (by rw [← h1])
    · exact Except.noConfusion h
  · -- typing not addressed to self
    injection h with h; injection h with h1 h2; exact Or.inl (by rw [← h1])
  · -- read_receipt addressed to self
    split at h
    · injection h with h; injection h with h1 h2; exact Or.inl (by rw [← h1])
    · exact Except.noConfusion h
  · -- read_receipt not addressed to self
    injection h with h; injection h with h1 h2; exact Or.inl (by rw [← h1])
  · -- file_offer addressed to self
    repeat' split at h
    all_goals first
      | exact Except.noConfusion h
      | (injection h with h; injection h with h1 h2; exact Or.inl (by rw [← h1]))
  · -- file_offer not addressed to self
    injection h with h; injection h with h1 h2; exact Or.inl (by rw [← h1])
  · -- disconnect, session pointed at the sender
    split at h
    · injection h with h; injection h with h1 h2
      refine Or.inr (Or.inr ⟨by rw [heq, hc10], by rw [← h1]⟩)
    · injection h with h; injection h with h1 h2; exact Or.inl (by rw [← h1])
  · -- disconnect, session elsewhere
    split at h
    · injection h with h; injection h with h1 h2
      refine Or.inr (Or.inr ⟨by rw [heq, hc10], by rw [← h1]⟩)
    · injection h with h; injection h with h1 h2; exact Or.inl (by rw [← h1])
  · -- unknown kind
    injection h with h; injection h with h1 h2; exact Or.inl (by rw [← h1])

theorem lookupKey_mem_list_peers (ps : List (String × PeerInfo)) (k : String) (info : PeerInfo)
    (now : Int) (h : lookupKey k ps = some info) :
    (info.username, k, peer_status now info) ∈ list_peers now ps := by
  induction ps with
  | nil => simp [lookupKey] at h
  | cons hd tl ih =>
    rcases hd with ⟨k', v'⟩
    by_cases hk : k' = k
    · subst hk
      simp [lookupKey] at h
      subst h
      simp [list_peers]
    · simp only [lookupKey, if_neg hk] at h
      simp only [list_peers, List.map_cons, List.mem_cons]
      exact Or.inr (ih h)

/-- C8: no dispatcher operation other than handling a disconnect datagram
removes a registry entry: for every inbound datagram whose dispatch kind is
not `disconnect`, the registry keys after handling are a superset of those
before; and an entry whose last-seen timestamp is 60 or more seconds old
still appears in the `list_peers` snapshot (as `"Inactive"`). -/
theorem registry_no_eviction (st : ChatState) (d : Datagram) (addr : String) (now : Int)
    (hk : datagramKind d ≠ some "disconnect") :
    (∀ a, a ∈ keys st.peers → a ∈ keys (handle_message st d addr now).1.peers) ∧
    (∀ (k : String) (info : PeerInfo) (tnow : Int), lookupKey k st.peers = some info →
       60 ≤ tnow - info.last_seen → (info.username, k, "Inactive") ∈ list_peers tnow st.peers) := by
  constructor
  · intro a ha
    cases d with
    | invalid => exact ha
    | nonObject => exact ha
    | obj j =>
      rcases hb : handleBody st j addr now with e | p
      · simp only [handle_message, hb]
        exact ha
      · rcases p with ⟨st2, evs2⟩
        simp only [handle_message, hb]
        rcases handleBody_peers st j addr now st2 evs2 hb with h1 | ⟨u, h1⟩ | ⟨h1, -⟩
        · rw [h1]; exact ha
        · rw [h1]; exact mem_keys_upsert st.peers addr a u ha
        · exact absurd h1 (by simpa [datagramKind] using hk)
  · intro k info tnow hl hstale
    have := lookupKey_mem_list_peers st.peers k info tnow hl
    have hst : peer_status tnow info = "Inactive" := by
      unfold peer_status
      rw [if_neg (by omega)]
    rw [hst] at this
    exact this

theorem registry_no_eviction_witness :
    datagramKind (Datagram.obj (encode (Message.presence "carol" 5))) ≠ some "disconnect" ∧
    (∀ a, a ∈ keys [("1.1.1.1", PeerInfo.mk (JVal.str "bob") 0)] →
       a ∈ keys (handle_message ⟨"me", [("1.1.1.1", PeerInfo.mk (JVal.str "bob") 0)], none⟩
         (Datagram.obj (encode (Message.presence "carol" 5))) "2.2.2.2" 5).1.peers) :=
  ⟨by decide,
   (registry_no_eviction ⟨"me", [("1.1.1.1", PeerInfo.mk (JVal.str "bob") 0)], none⟩
     (Datagram.obj (encode (Message.presence "carol" 5))) "2.2.2.2" 5 (by decide)).1⟩

theorem handleBody_current_chat (st : ChatState) (j : Json) (fromIp : String) (now : Int)
    (st' : ChatState) (evs : List Event) (p : String)
    (hcc : st.current_chat = some p) (hp : p ≠ "") (haddr : fromIp ≠ p)
    (hcmd : isCommandChat (Datagram.obj j) st.username = false)
    (h : handleBody st j fromIp now = Except.ok (st', evs)) :
    st'.current_chat = some p := by
  unfold handleBody at h
  split at h
  · injection h with h; injection h with h1 h2; rw [← h1]; exact hcc
  rename_i t heq
  split_ifs at h with hc1 hc2 hc3 hc4 hc5 hc6 hc7 hc8 hc9 hc10 hc11
  · -- presence
    split at h
    · injection h with h; injection h with h1 h2; rw [← h1]; exact hcc
    · exact Except.noConfusion h
  · -- message addressed to self
    subst hc2
    split at h
    · exact Except.noConfusion h
    rename_i sender hsender
    split at h
    · exact Except.noConfusion h
    rename_i text htext
    split at h
    · -- command chat: excluded by the hypothesis
      rename_i hstart
      rw [isCommandChat] at hcmd
      simp [heq, hc3, htext, hstart] at hcmd
    · -- plain chat
      simp only [bind, Except.bind, Except.ok.injEq, Prod.mk.injEq] at h
      rcases h with ⟨h1, -⟩
      rw [← h1, hcc]
      simp [truthy, hp, hcc]
  · -- message not addressed to self
    injection h with h; injection h with h1 h2; rw [← h1]; exact hcc
  · -- typing addressed to self
    split at h
    · injection h with h; injection h with h1 h2; rw [← h1]; exact hcc
    · exact Except.noConfusion h
  · -- typing not addressed to self
    injection h with h; injection h with h1 h2; rw [← h1]; exact hcc
  · -- read_receipt addressed to self
    split at h
    · injection h with h; injection h with h1 h2; rw [← h1]; exact hcc
    · exact Except.noConfusion h
  · -- read_receipt not addressed to self
    injection h with h; injection h with h1 h2; rw [← h1]; exact hcc
  · -- file_offer addressed to self
    repeat' split at h
    all_goals first
      | exact Except.noConfusion h
      | (injection h with h; injection h with h1 h2; rw [← h1]; exact hcc)
  · -- file_offer not addressed to self
    injection h with h; injection h with h1 h2; rw [← h1]; exact hcc
  · -- disconnect, session pointed at the sender: impossible, addr differs
    rw [hcc] at hc11
    injection hc11 with hc11
    exact absurd hc11.symm haddr
  · -- disconnect, session elsewhere
    split at h
    · injection h with h; injection h with h1 h2; rw [← h1]; exact hcc
    · injection h with h; injection h with h1 h2; rw [← h1]; exact hcc
  · -- unknown kind
    injection h with h; injection h with h1 h2; rw [← h1]; exact hcc

/-- C5 (amended): while the session is `Active(p)` (with `p` a nonempty
address), handling any inbound datagram from an address other than `p` that
is not a command-bearing chat addressed to the local name leaves the active
partner equal to `p`; a chat whose text is a command (`/quit`, or
`/msg <known addr>`) can change the pointer. -/
theorem other_peers_keep_session (st : ChatState) (d : Datagram) (addr : String) (now : Int)
    (p : String) (hcc : st.current_chat = some p) (hp : p ≠ "") (haddr : addr ≠ p)
    (hcmd : isCommandChat d st.username = false) :
    (handle_message st d addr now).1.current_chat = some p := by
  cases d with
  | invalid => exact hcc
  | nonObject => exact hcc
  | obj j =>
    rcases hb : handleBody st j addr now with e | p2
    · simp only [handle_message, hb]
      exact hcc
    · rcases p2 with ⟨st2, evs2⟩
      simp only [handle_message, hb]
      exact handleBody_current_chat st j addr now st2 evs2 p hcc hp haddr hcmd hb

theorem other_peers_keep_session_witness :
    (⟨"me", [("1.1.1.1", PeerInfo.mk (JVal.str "bob") 0)], some "1.1.1.1"⟩ : ChatState).current_chat = some "1.1.1.1" ∧
    (handle_message ⟨"me", [("1.1.1.1", PeerInfo.mk (JVal.str "bob") 0)], some "1.1.1.1"⟩
      (Datagram.obj (encode (Message.typing "eve" "me" 3))) "2.2.2.2" 3).1.current_chat = some "1.1.1.1" :=
  ⟨rfl,
   other_peers_keep_session ⟨"me", [("1.1.1.1", PeerInfo.mk (JVal.str "bob") 0)], some "1.1.1.1"⟩
     (Datagram.obj (encode (Message.typing "eve" "me" 3))) "2.2.2.2" 3 "1.1.1.1"
     rfl (by decide) (by decide) (by decide)⟩

/-- C5 counterexample: while `Active("1.1.1.1")`, an inbound chat from
`2.2.2.2` addressed to the local name whose text is `/quit` moves the active
partner to the sender: the command handler clears the session and the
auto-adopt step then sets `2.2.2.2`. -/
theorem other_peers_change_session_counterexample :
    (handle_message ⟨"me", [("1.1.1.1", PeerInfo.mk (JVal.str "bob") 0), ("2.2.2.2", PeerInfo.mk (JVal.str "eve") 0)], some "1.1.1.1"⟩
      (Datagram.obj (encode (Message.chat "eve" "me" "/quit" 4))) "2.2.2.2" 4).1.current_chat ≠ some "1.1.1.1" := by
  decide

/-- C3 (amended): every byte string rejected by the JSON parser is reported
as an invalid message with the sender address and leaves the registry and the
active-session pointer unchanged; a valid JSON document that is not an object
is likewise contained (generic error report, state unchanged).  Handling
never raises past the dispatcher boundary: `handle_message` is total. -/
theorem malformed_bytes_contained (st : ChatState) (addr : String) (now : Int) :
    handle_message st Datagram.invalid addr now = (st, [Event.invalidMessage addr]) ∧
    handle_message st Datagram.nonObject addr now = (st, [Event.handlerError]) :=
  ⟨rfl, rfl⟩

/-- C3 counterexample: the JSON object `{"type": "disconnect"}` is not a
well-formed encoded message, yet handling it from a known peer's address
changes the registry (the peer is removed) and reports no malformed-message
condition with the sender address. -/
theorem malformed_state_change_counterexample :
    wellFormed (Datagram.obj [("type", JVal.str "disconnect")]) = false ∧
    (handle_message ⟨"me", [("5.6.7.8", ⟨JVal.str "bob", 0⟩)], none⟩
        (Datagram.obj [("type", JVal.str "disconnect")]) "5.6.7.8" 0).1.peers ≠
      [("5.6.7.8", ⟨JVal.str "bob", 0⟩)] ∧
    Event.invalidMessage "5.6.7.8" ∉
      (handle_message ⟨"me", [("5.6.7.8", ⟨JVal.str "bob", 0⟩)], none⟩
        (Datagram.obj [("type", JVal.str "disconnect")]) "5.6.7.8" 0).2 := by
  decide

/-- C4: an entry upserted with last-seen timestamp `t0` is classified
`"Active"` when listed at `t0+59` and `"Inactive"` at `t0+61`; in general a
peer is active iff `now - last_seen < 60`. -/
theorem liveness_window (ps : List (String × PeerInfo)) (addr : String) (t0 : Int) :
    lookupKey addr (upsert addr ⟨JVal.str "alice", t0⟩ ps) = some ⟨JVal.str "alice", t0⟩ ∧
    peer_status (t0 + 59) ⟨JVal.str "alice", t0⟩ = "Active" ∧
    peer_status (t0 + 61) ⟨JVal.str "alice", t0⟩ = "Inactive" ∧
    (∀ (now : Int) (info : PeerInfo), peer_status now info = "Active" ↔ now - info.last_seen < 60) := by
  refine ⟨lookupKey_upsert_self ps addr _, ?_, ?_, ?_⟩
  · simp [peer_status]
  · simp [peer_status]
  · intro now info
    unfold peer_status
    split
    · simpa
    · simp_all

/-- C7: handling the command `/msg a` for an address `a` (the text after the
sigil, stripped) that is not in the registry reports a user-not-found error
and leaves the session state entirely unchanged. -/
theorem msg_unknown_addr (st : ChatState) (c : String) (fromIp : Option String)
    (hpre : pyStartsWith c "/msg " = true)
    (hmiss : lookupKey (pyStrip (pyDrop c 5)) st.peers = none) :
    handle_command st c fromIp = Except.ok (st, [Event.userNotFound (pyStrip (pyDrop c 5))]) := by
  simp [handle_command, hpre, hmiss]

theorem msg_unknown_addr_witness :
    handle_command ⟨"me", [], none⟩ "/msg 10.0.0.9" none =
      Except.ok (⟨"me", [], none⟩, [Event.userNotFound "10.0.0.9"]) :=
  msg_unknown_addr ⟨"me", [], none⟩ "/msg 10.0.0.9" none (by decide) (by decide)

/-- C9: offering a file whose path does not resolve reports file-not-found,
sends no datagram, and leaves the session state unchanged. -/
theorem file_offer_missing (st : ChatState) (fs : List (String × List Nat))
    (hashFn : List Nat → String) (filename pu ip : String) (now : Int)
    (h : lookupKey filename fs = none) :
    send_file_offer st fs hashFn filename pu ip now = (st, [Event.fileNotFound filename], []) := by
  simp [send_file_offer, h]

theorem file_offer_missing_witness :
    send_file_offer ⟨"me", [], none⟩ [] (fun _ => "") "/tmp/x" "bob" "1.2.3.4" 0 =
      (⟨"me", [], none⟩, [Event.fileNotFound "/tmp/x"], []) :=
  file_offer_missing ⟨"me", [], none⟩ [] (fun _ => "") "/tmp/x" "bob" "1.2.3.4" 0 (by decide)

/-- C10 (amended): for every nonempty sender address `a`, handling an inbound
chat from `a` addressed to the local display name whose text is exactly
`/quit` ends with the active partner equal to `a` — the command handler
clears the session and the auto-adopt step then sets the sender — provided
the prior active partner, when truthy, is present in the registry (otherwise
the `KeyError` on `self.peers[self.current_chat]` aborts handling and the
partner is unchanged). -/
theorem quit_chat_adopts_sender (st : ChatState) (a f : String) (t now : Int)
    (ha : a ≠ "")
    (hsafe : ∀ b, st.current_chat = some b → b ≠ "" → (lookupKey b st.peers).isSome = true) :
    (handle_message st (Datagram.obj (encode (Message.chat f st.username "/quit" t)))
      a now).1.current_chat = some a := by
  have hmsg : pyStartsWith "/quit" "/msg " = false := by decide
  have hsl : pyStartsWith "/quit" "/" = true := by decide
  rcases hcc : st.current_chat with _ | b
  · simp [handle_message, handleBody, encode, kindOf, jget, jeqStr, jgetStr, bind, Except.bind,
          handle_command, hmsg, hsl, truthy, ha, hcc]
  · by_cases hb : b = ""
    · subst hb
      simp [handle_message, handleBody, encode, kindOf, jget, jeqStr, jgetStr, bind, Except.bind,
            handle_command, hmsg, hsl, truthy, ha, hcc]
    · have hiss := hsafe b hcc hb
      rcases hlk : lookupKey b st.peers with _ | info
      · rw [hlk] at hiss
        simp at hiss
      · simp [handle_message, handleBody, encode, kindOf, jget, jeqStr, jgetStr, bind, Except.bind,
              handle_command, hmsg, hsl, truthy, ha, hcc, hb, hlk]

theorem quit_chat_adopts_sender_witness :
    (handle_message ⟨"me", [("9.9.9.9", PeerInfo.mk (JVal.str "bob") 0)], some "9.9.9.9"⟩
      (Datagram.obj (encode (Message.chat "eve" "me" "/quit" 2)))
      "1.2.3.4" 2).1.current_chat = some "1.2.3.4" :=
  quit_chat_adopts_sender ⟨"me", [("9.9.9.9", PeerInfo.mk (JVal.str "bob") 0)], some "9.9.9.9"⟩
    "1.2.3.4" "eve" 2 2 (by decide) (by decide)

/-- C10 counterexample: with the session `Active("9.9.9.9")` but `9.9.9.9`
absent from the registry (as auto-adoption leaves it), an inbound `/quit`
chat raises `KeyError` inside the command handler, handling aborts, and the
active partner stays `9.9.9.9` instead of becoming the sender `1.2.3.4`. -/
theorem quit_chat_keyerror_counterexample :
    (handle_message ⟨"me", [], some "9.9.9.9"⟩
      (Datagram.obj (encode (Message.chat "eve" "me" "/quit" 2)))
      "1.2.3.4" 2).1.current_chat ≠ some "1.2.3.4" := by
  decide

/-- C2 (amended): from `Idle` with `p` absent from the registry, an inbound
plain chat from `p` addressed to the local name yields `Active(p)` but does
not add `p` to the registry (chat datagrams never upsert); after a
`presence` datagram from `p` has added it, a `disconnect` from `p` yields
`Idle` and removes `p` from the registry. -/
theorem chat_then_disconnect (st : ChatState) (p f text : String) (tc tp td now : Int)
    (hidle : st.current_chat = none) (habs : lookupKey p st.peers = none)
    (hplain : pyStartsWith text "/" = false) :
    (handle_message st (Datagram.obj (encode (Message.chat f st.username text tc))) p now).1.current_chat = some p ∧
    lookupKey p (handle_message st (Datagram.obj (encode (Message.chat f st.username text tc))) p now).1.peers = none ∧
    (handle_message (handle_message (handle_message st
          (Datagram.obj (encode (Message.chat f st.username text tc))) p now).1
        (Datagram.obj (encode (Message.presence f tp))) p now).1
      (Datagram.obj (encode (Message.disconnect f td))) p now).1.current_chat = none ∧
    lookupKey p (handle_message (handle_message (handle_message st
          (Datagram.obj (encode (Message.chat f st.username text tc))) p now).1
        (Datagram.obj (encode (Message.presence f tp))) p now).1
      (Datagram.obj (encode (Message.disconnect f td))) p now).1.peers = none := by
  have h1 : handle_message st (Datagram.obj (encode (Message.chat f st.username text tc))) p now =
      ({ st with current_chat := some p }, [Event.renderChat (JVal.str f) p text]) := by
    simp [handle_message, handleBody, encode, kindOf, jget, jeqStr, jgetStr, bind, Except.bind,
          hplain, hidle, truthy]
  have h2 : handle_message { st with current_chat := some p }
      (Datagram.obj (encode (Message.presence f tp))) p now =
      ({ st with current_chat := some p, peers := upsert p ⟨JVal.str f, now⟩ st.peers }, []) := by
    simp [handle_message, handleBody, encode, kindOf, jget]
  have h3 : handle_message { st with current_chat := some p, peers := upsert p ⟨JVal.str f, now⟩ st.peers }
      (Datagram.obj (encode (Message.disconnect f td))) p now =
      ({ st with current_chat := none }, [Event.peerDisconnected (JVal.str f) p]) := by
    simp [handle_message, handleBody, encode, kindOf, jget, lookupKey_upsert_self,
          lookupKey_removeKey_upsert _ _ _ habs]
  refine ⟨by rw [h1], by rw [h1]; exact habs, ?_, ?_⟩
  · simp only [h1, h2, h3]
  · simp only [h1, h2, h3]
    exact habs

theorem chat_then_disconnect_witness :
    (handle_message (handle_message (handle_message ⟨"me", [], none⟩
          (Datagram.obj (encode (Message.chat "alice" "me" "hi" 0))) "10.0.0.1" 0).1
        (Datagram.obj (encode (Message.presence "alice" 1))) "10.0.0.1" 0).1
      (Datagram.obj (encode (Message.disconnect "alice" 2))) "10.0.0.1" 0).1.current_chat = none :=
  (chat_then_disconnect ⟨"me", [], none⟩ "10.0.0.1" "alice" "hi" 0 1 2 0
    rfl (by decide) (by decide)).2.2.1

/-- C2 counterexample: with `p = 10.0.0.1` never seen before, an inbound chat
from `p` followed directly by a `disconnect` from `p` leaves the session
`Active(p)` rather than `Idle`: the chat never added `p` to the registry, so
the disconnect branch's membership guard skips the whole handler. -/
theorem chat_then_disconnect_counterexample :
    (handle_message (handle_message ⟨"me", [], none⟩
        (Datagram.obj (encode (Message.chat "alice" "me" "hello" 0))) "10.0.0.1" 0).1
      (Datagram.obj (encode (Message.disconnect "alice" 1))) "10.0.0.1" 1).1.current_chat ≠ none := by
  decide

theorem discover_step_skip (localIp : String) (ps : List (String × PeerInfo)) (e : InEvent)
    (h : isPresenceDatagram e.data = false ∨ e.src = localIp) :
    discover_step localIp ps e = ps := by
  rcases e with ⟨arr, src, data⟩
  rcases data with _ | _ | j
  · rfl
  · rfl
  · simp only [isPresenceDatagram] at h
    unfold discover_step
    rcases h with h | h
    · simp [h]
    · simp [h]

theorem foldl_discover_skip (localIp : String) (l : List InEvent)
    (init : List (String × PeerInfo))
    (h : ∀ e ∈ l, isPresenceDatagram e.data = false ∨ e.src = localIp) :
    l.foldl (discover_step localIp) init = init := by
  induction l generalizing init with
  | nil => rfl
  | cons hd tl ih =>
    rw [List.foldl_cons, discover_step_skip localIp init hd (h hd (by simp))]
    exact ih init (fun e he => h e (by simp [he]))

theorem mem_keys_upsert_inv (ps : List (String × PeerInfo)) (k a : String) (v : PeerInfo)
    (h : a ∈ keys (upsert k v ps)) : a = k ∨ a ∈ keys ps := by
  induction ps with
  | nil =>
    simp only [upsert, keys, List.mem_cons, List.not_mem_nil, or_false] at h
    exact Or.inl h
  | cons hd tl ih =>
    rcases hd with ⟨k', v'⟩
    by_cases hk : k' = k
    · subst hk
      simp only [upsert, if_pos rfl, keys, List.mem_cons] at h
      rcases h with h | h
      · exact Or.inl h
      · exact Or.inr (by simp [keys, h])
    · simp only [upsert, if_neg hk, keys, List.mem_cons] at h
      rcases h with h | h
      · exact Or.inr (by simp [keys, h])
      · rcases ih h with h | h
        · exact Or.inl h
        · exact Or.inr (by simp [keys, h])

theorem foldl_discover_sources (localIp : String) (l : List InEvent)
    (init : List (String × PeerInfo)) (a : String)
    (h : a ∈ keys (l.foldl (discover_step localIp) init)) :
    a ∈ keys init ∨ ∃ e ∈ l, e.src = a ∧ a ≠ localIp ∧ isPresenceDatagram e.data = true := by
  induction l generalizing init with
  | nil => exact Or.inl h
  | cons hd tl ih =>
    rw [List.foldl_cons] at h
    rcases ih (discover_step localIp init hd) h with h1 | ⟨e, he, hsrc⟩
    · rcases hd with ⟨arr, src, data⟩
      rcases data with _ | _ | j
      · exact Or.inl h1
      · exact Or.inl h1
      · unfold discover_step at h1
        dsimp only at h1
        split at h1
        · rename_i hcond
          rcases hu : jget j "username" with _ | u
          · rw [hu] at h1
            exact Or.inl h1
          · rw [hu] at h1
            rcases mem_keys_upsert_inv init src a _ h1 with h2 | h2
            · exact Or.inr ⟨⟨arr, src, Datagram.obj j⟩, by simp,
                by simp [h2.symm], by rw [h2]; exact hcond.2,
                by simp [isPresenceDatagram, hcond.1]⟩
            · exact Or.inl h2
        · exact Or.inl h1
    · exact Or.inr ⟨e, by simp [he], hsrc⟩

/-- C6: the one-shot discovery routine starts from an empty registry; with no
presence responder from a non-local address inside the window the final
snapshot is empty; every address in the final registry comes from a presence
datagram received inside the window from an address other than the local one;
and datagrams outside the window never influence the result (the routine
stops draining at window close). -/
theorem discovery_probe (localIp : String) (start timeout : Int) (inbox : List InEvent) :
    ((∀ e ∈ inbox, e.arrival - start < timeout →
        isPresenceDatagram e.data = false ∨ e.src = localIp) →
      discover_peers localIp start timeout inbox = []) ∧
    (∀ a, a ∈ keys (discover_peers localIp start timeout inbox) →
      ∃ e ∈ inbox, e.arrival - start < timeout ∧ e.src = a ∧ a ≠ localIp ∧
        isPresenceDatagram e.data = true) ∧
    discover_peers localIp start timeout inbox =
      discover_peers localIp start timeout
        (inbox.filter (fun e => e.arrival - start < timeout)) := by
  refine ⟨?_, ?_, ?_⟩
  · intro h
    unfold discover_peers
    refine foldl_discover_skip localIp _ [] (fun e he => ?_)
    rw [List.mem_filter] at he
    exact h e he.1 (by simpa using he.2)
  · intro a ha
    unfold discover_peers at ha
    rcases foldl_discover_sources localIp _ [] a ha with h | ⟨e, he, hsrc, hloc, hpres⟩
    · simp [keys] at h
    · rw [List.mem_filter] at he
      exact ⟨e, he.1, by simpa using he.2, hsrc, hloc, hpres⟩
  · unfold discover_peers
    rw [List.filter_filter]
    simp

theorem discovery_probe_witness :
    discover_peers "192.168.0.2" 0 5
      [⟨10, "1.2.3.4", Datagram.obj (encode (Message.presence "bob" 10))⟩,
       ⟨1, "192.168.0.2", Datagram.obj (encode (Message.presence "me" 1))⟩] = [] :=
  (discovery_probe "192.168.0.2" 0 5
    [⟨10, "1.2.3.4", Datagram.obj (encode (Message.presence "bob" 10))⟩,
     ⟨1, "192.168.0.2", Datagram.obj (encode (Message.presence "me" 1))⟩]).1 (by decide)

end P2P
